import Mathlib

/-!
Shallow embedding of `src/gstprovider/rwcontrol.cpp` (PsiMedia).

The file models the two halves of the control channel:

* `RwControlLocal` (the "front"): its inbox of messages, the push-time
  bounded retention of frames (`postMessageF`), the drain with coalescing
  (`processMessagesF`), and the observer callbacks it emits (`FrontEvent`).
  Re-entrant destruction of the object by a callback is modelled by a
  predicate `kills : FrontEvent → Bool` saying which callback destroys
  the receiver, mirroring the `QPointer self` liveness check in the drain.

* `RwControlRemote` (the "back"): its state (`RemoteState`: the `blocking`
  flag, the `pending_status` flag, the wake `timer`, the inbox), the
  per-message dispatch `processMessage` whose Bool result is the C++
  return value (false = enter the blocked state and stop draining), the
  drain loop `processMessagesB`, the worker completion callbacks
  (`worker_started`, `worker_updated`, `worker_stopped`, `worker_finished`,
  `worker_error`) and `resumeMessages`.  Operations applied to the
  `RtpWorker` are recorded in order in a `workerOps` log, and messages
  posted back to the local side in an `outbox` log.

Payloads that the control logic never inspects (device configs, codec
configs, images) are modelled as `Nat` identifiers.
-/

namespace RwControl

/-- `RwControlFrame::Type`: the two frame kinds. -/
inductive FrameType
  | preview
  | output
  deriving DecidableEq, Repr

/-- The status snapshot carried by an `RwControlStatusMessage`
(`statusFromWorker` plus the flags set by the completion callbacks).
Only the fields the control logic itself writes are modelled. -/
structure Status where
  stopped : Bool := false
  finished : Bool := false
  errorFlag : Bool := false
  deriving DecidableEq, Repr

/-- `RwControlMessage` and its subclasses, as a tagged union.
Opaque payloads (device/codec configs, frame images) are `Nat` ids. -/
inductive Msg
  | status (st : Status)
  | frame (ftype : FrameType) (image : Nat)
  | audioIntensity (value : Int)
  | start (devices : Nat) (codecs : Nat)
  | stop
  | updateDevices (devices : Nat)
  | updateCodecs (codecs : Nat)
  | transmit (useAudio : Bool) (audioIndex : Int) (useVideo : Bool) (videoIndex : Int)
  | record (enabled : Bool)
  deriving DecidableEq, Repr

/-- `#define QUEUE_FRAME_MAX 10` -/
def QUEUE_FRAME_MAX : Nat := 10

/-- Does a message hold a frame of the given kind?
(the test `msg->type == Frame && msg->frame.type == type`). -/
def isFrameOfType (t : FrameType) : Msg → Bool
  | .frame ft _ => ft = t
  | _ => false

/-- `queuedFrameInfo` body: walks the list with an absolute index `i`,
counting frames of kind `t` and remembering the position of the first
one (`*firstPos`).  Returns `(count, firstPos)`. -/
def queuedFrameInfoAux : List Msg → FrameType → Nat → Nat × Option Nat
  | [], _, _ => (0, none)
  | m :: rest, t, i =>
    let (c, p) := queuedFrameInfoAux rest t (i + 1)
    if isFrameOfType t m then (c + 1, some i) else (c, p)

/-- `queuedFrameInfo(list, type, &firstPos)`. -/
def queuedFrameInfo (list : List Msg) (t : FrameType) : Nat × Option Nat :=
  queuedFrameInfoAux list t 0

/-- `RwControlLocal::postMessage`: under the lock, if the pushed message is
a frame and the queue already holds `QUEUE_FRAME_MAX` frames of its kind,
the oldest frame of that kind is removed; then the message is appended. -/
def postMessageF (inbox : List Msg) (msg : Msg) : List Msg :=
  match msg with
  | .frame t _ =>
    let info := queuedFrameInfo inbox t
    let inbox' :=
      if QUEUE_FRAME_MAX ≤ info.fst then
        match info.snd with
        | some p => inbox.eraseIdx p
        | none => inbox
      else inbox
    inbox' ++ [msg]
  | _ => inbox ++ [msg]

/-- `getLatestFrameAndRemoveOthers(list, type)`: scans the list, removes
every frame of kind `t`, and returns the image of the one found last. -/
def getLatestFrameAndRemoveOthers (t : FrameType) : List Msg → Option Nat × List Msg
  | [] => (none, [])
  | .frame ft img :: rest =>
    if ft = t then
      let (f, rest') := getLatestFrameAndRemoveOthers t rest
      (some (f.getD img), rest')
    else
      let (f, rest') := getLatestFrameAndRemoveOthers t rest
      (f, .frame ft img :: rest')
  | m :: rest =>
    let (f, rest') := getLatestFrameAndRemoveOthers t rest
    (f, m :: rest')

/-- `getLatestAudioIntensityAndRemoveOthers(list)`: scans the list, removes
every `AudioIntensity` message, and returns the value of the last one. -/
def getLatestAudioIntensityAndRemoveOthers : List Msg → Option Int × List Msg
  | [] => (none, [])
  | .audioIntensity v :: rest =>
    let (a, rest') := getLatestAudioIntensityAndRemoveOthers rest
    (some (a.getD v), rest')
  | m :: rest =>
    let (a, rest') := getLatestAudioIntensityAndRemoveOthers rest
    (a, m :: rest')

/-- The observer callbacks (Qt signals) `RwControlLocal` emits during a
drain, with their payloads. -/
inductive FrontEvent
  | previewFrame (image : Nat)
  | outputFrame (image : Nat)
  | audioIntensityChanged (value : Int)
  | statusReady (st : Status)
  deriving DecidableEq, Repr

/-- The final loop of `RwControlLocal::processMessages`: take messages in
order, emit `statusReady` for each `Status` message, delete the others.
After each emission the `QPointer self` liveness check runs: if the
callback destroyed the object (`kills e = true`), the remaining messages
are discarded and no further callback is invoked. -/
def emitStatuses (kills : FrontEvent → Bool) : List Msg → List FrontEvent
  | [] => []
  | .status st :: rest =>
    let e := FrontEvent.statusReady st
    if kills e then [e] else e :: emitStatuses kills rest
  | _ :: rest => emitStatuses kills rest

/-- Third stage of `RwControlLocal::processMessages`: the latest audio
intensity is extracted and emitted (with the liveness check), then the
remaining messages are processed. -/
def drainStage3 (kills : FrontEvent → Bool) (l : List Msg) : List FrontEvent :=
  let r := getLatestAudioIntensityAndRemoveOthers l
  match r.fst with
  | some v =>
    let e := FrontEvent.audioIntensityChanged v
    if kills e then [e] else e :: emitStatuses kills r.snd
  | none => emitStatuses kills r.snd

/-- Second stage of `RwControlLocal::processMessages`: the latest output
frame is extracted and emitted (with the liveness check). -/
def drainStage2 (kills : FrontEvent → Bool) (l : List Msg) : List FrontEvent :=
  let r := getLatestFrameAndRemoveOthers .output l
  match r.fst with
  | some img =>
    let e := FrontEvent.outputFrame img
    if kills e then [e] else e :: drainStage3 kills r.snd
  | none => drainStage3 kills r.snd

/-- `RwControlLocal::processMessages`, as the sequence of observer
callbacks emitted for a drained batch `inbox`: latest preview frame,
then latest output frame, then latest audio intensity, then the
surviving `Status` messages in order.  `kills e = true` means the
callback for `e` destroys the object; the drain then stops. -/
def processMessagesF (kills : FrontEvent → Bool) (inbox : List Msg) : List FrontEvent :=
  let r := getLatestFrameAndRemoveOthers .preview inbox
  match r.fst with
  | some img =>
    let e := FrontEvent.previewFrame img
    if kills e then [e] else e :: drainStage2 kills r.snd
  | none => drainStage2 kills r.snd

/-- The operations `RwControlRemote::processMessage` applies to the
`RtpWorker` (including the field assignments done by
`applyDevicesToWorker` / `applyCodecsToWorker`, recorded as one step). -/
inductive WorkerOp
  | applyDevices (d : Nat)
  | applyCodecs (c : Nat)
  | start
  | stop
  | update
  | transmitAudio (i : Int)
  | pauseAudio
  | transmitVideo (i : Int)
  | pauseVideo
  | recordStart
  | recordStop
  deriving DecidableEq, Repr

/-- The state of an `RwControlRemote`: the `blocking` and `pending_status`
flags, whether a wake `timer` is attached, the inbox, plus two logs:
the operations applied to the worker (`workerOps`, in order) and the
messages posted back to the local side (`outbox`, in order). -/
structure RemoteState where
  blocking : Bool
  pending_status : Bool
  timer : Bool
  inbox : List Msg
  workerOps : List WorkerOp
  outbox : List Msg
  deriving DecidableEq, Repr

/-- The state of a freshly constructed `RwControlRemote`:
`blocking = false`, `pending_status = false`, no timer, empty queues. -/
def initialRemote : RemoteState :=
  { blocking := false, pending_status := false, timer := false,
    inbox := [], workerOps := [], outbox := [] }

/-- `RwControlRemote::processMessage`: dispatch one message to the worker.
The returned Bool is the C++ return value: `false` makes the drain loop
enter the blocked state and stop.  `Start`, `Stop`, `UpdateDevices` and
`UpdateCodecs` all return `false`; `Transmit` and `Record` (and the
unmatched message types, which fall through) return `true`. -/
def processMessage (s : RemoteState) (msg : Msg) : Bool × RemoteState :=
  match msg with
  | .start d c =>
    (false, { s with workerOps := s.workerOps ++ [.applyDevices d, .applyCodecs c, .start],
                     pending_status := true })
  | .stop =>
    (false, { s with workerOps := s.workerOps ++ [.stop],
                     pending_status := true })
  | .updateDevices d =>
    (false, { s with workerOps := s.workerOps ++ [.applyDevices d, .update] })
  | .updateCodecs c =>
    (false, { s with workerOps := s.workerOps ++ [.applyCodecs c, .update],
                     pending_status := true })
  | .transmit ua ai uv vi =>
    (true, { s with workerOps := s.workerOps
        ++ [if ua then WorkerOp.transmitAudio ai else WorkerOp.pauseAudio]
        ++ [if uv then WorkerOp.transmitVideo vi else WorkerOp.pauseVideo] })
  | .record en =>
    (true, { s with workerOps := s.workerOps
        ++ [if en then WorkerOp.recordStart else WorkerOp.recordStop] })
  | _ => (true, s)

/-- The `while(1)` loop of `RwControlRemote::processMessages`: take the
first queued message, dispatch it; on a `false` return set `blocking`,
drop the timer, and stop with the rest still queued. -/
def drainLoop : RemoteState → List Msg → RemoteState
  | s, [] => { s with inbox := [] }
  | s, msg :: rest =>
    let r := processMessage s msg
    if r.fst then drainLoop r.snd rest
    else { r.snd with blocking := true, timer := false, inbox := rest }

/-- `RwControlRemote::processMessages`: clear the fired timer, then drain. -/
def processMessagesB (s : RemoteState) : RemoteState :=
  drainLoop { s with timer := false } s.inbox

/-- `RwControlRemote::postMessage` (called from the local thread): append
to the inbox; if not blocking and no timer attached, attach a wake timer. -/
def postMessageB (s : RemoteState) (msg : Msg) : RemoteState :=
  let s' := { s with inbox := s.inbox ++ [msg] }
  if s'.blocking = false ∧ s'.timer = false then { s' with timer := true } else s'

/-- `statusFromWorker`: a snapshot with no terminal flag set. -/
def statusFromWorker : Status := {}

/-- `RwControlRemote::resumeMessages`: if blocking, clear the flag; if the
inbox is non-empty and no timer is attached, attach a wake timer. -/
def resumeMessages (s : RemoteState) : RemoteState :=
  if s.blocking then
    let s' := { s with blocking := false }
    if s'.inbox ≠ [] ∧ s'.timer = false then { s' with timer := true } else s'
  else s

/-- `RwControlRemote::worker_started`: clear `pending_status`, post a
status snapshot to the local side, and resume. -/
def worker_started (s : RemoteState) : RemoteState :=
  resumeMessages { s with pending_status := false,
                          outbox := s.outbox ++ [Msg.status statusFromWorker] }

/-- `RwControlRemote::worker_updated`: if `pending_status` is set, clear it
and post a status snapshot; in any case resume. -/
def worker_updated (s : RemoteState) : RemoteState :=
  resumeMessages <|
    if s.pending_status then
      { s with pending_status := false,
               outbox := s.outbox ++ [Msg.status statusFromWorker] }
    else s

/-- `RwControlRemote::worker_stopped`: clear `pending_status` and post a
status with `stopped = true`.  It does not call `resumeMessages`. -/
def worker_stopped (s : RemoteState) : RemoteState :=
  { s with pending_status := false,
           outbox := s.outbox ++ [Msg.status { statusFromWorker with stopped := true }] }

/-- `RwControlRemote::worker_finished`: post a status with
`finished = true`.  It touches neither flag and does not resume. -/
def worker_finished (s : RemoteState) : RemoteState :=
  { s with outbox := s.outbox ++ [Msg.status { statusFromWorker with finished := true }] }

/-- `RwControlRemote::worker_error`: post a status with the error flag
set.  It touches neither flag and does not resume. -/
def worker_error (s : RemoteState) : RemoteState :=
  { s with outbox := s.outbox ++ [Msg.status { statusFromWorker with errorFlag := true }] }

/-! ### Specification-side definitions

These follow the spec's words ("keep only the last occurrence", "the
oldest one of that kind is removed", "remaining Status messages in
arrival order") and are compared with the code-side functions above. -/

/-- Is a message an `AudioIntensity` message? -/
def isAudioIntensity : Msg → Bool
  | .audioIntensity _ => true
  | _ => false

/-- Spec: the image of the last occurrence of a frame of kind `t`. -/
def specLastFrame (t : FrameType) : List Msg → Option Nat
  | [] => none
  | m :: rest =>
    match specLastFrame t rest with
    | some i => some i
    | none =>
      match m with
      | .frame ft img => if ft = t then some img else none
      | _ => none

/-- Spec: the value of the last occurrence of an audio-intensity message. -/
def specLastAudio : List Msg → Option Int
  | [] => none
  | m :: rest =>
    match specLastAudio rest with
    | some v => some v
    | none =>
      match m with
      | .audioIntensity v => some v
      | _ => none

/-- Spec: remove the oldest (first) frame of kind `t`, keeping everything
else in order. -/
def removeFirstOfKind (t : FrameType) : List Msg → List Msg
  | [] => []
  | m :: rest => if isFrameOfType t m then rest else m :: removeFirstOfKind t rest

/-- The number of queued frames of kind `t`. -/
def frameCount (t : FrameType) (l : List Msg) : Nat :=
  (l.filter (isFrameOfType t)).length

/-- Spec: the status events of a batch, in arrival order. -/
def statusEvents : List Msg → List FrontEvent
  | [] => []
  | .status st :: rest => FrontEvent.statusReady st :: statusEvents rest
  | _ :: rest => statusEvents rest

/-- An optional event as a zero- or one-element list. -/
def optList : Option FrontEvent → List FrontEvent
  | some e => [e]
  | none => []

/-! ### Concrete scenarios used by the verification -/

/-- Fifteen preview frames (images 1..15) pushed through
`RwControlLocal::postMessage` into an initially empty front inbox. -/
def c4inbox : List Msg :=
  (List.range 15).foldl (fun q i => postMessageF q (Msg.frame FrameType.preview (i + 1))) []

/-- A front queue holding ten preview frames (the retention bound). -/
def c6q : List Msg :=
  (List.range 10).map (fun i => Msg.frame FrameType.preview i)

/-- A back state blocked on a lifecycle command with a `Stop` queued. -/
def c2s : RemoteState :=
  { blocking := true, pending_status := true, timer := false,
    inbox := [Msg.stop], workerOps := [], outbox := [] }

/-- Scenario for the Start-then-Stop race: both commands posted before
any drain. -/
def c3s2 : RemoteState := postMessageB (postMessageB initialRemote (Msg.start 1 2)) Msg.stop

/-- ... the first drain: `Start` is dispatched, the loop blocks with the
`Stop` still queued. -/
def c3s3 : RemoteState := processMessagesB c3s2

/-- ... the worker completes the start: one status is posted and draining
resumes. -/
def c3s4 : RemoteState := worker_started c3s3

/-- ... the second drain: `Stop` is dispatched and the loop blocks. -/
def c3s5 : RemoteState := processMessagesB c3s4

/-- ... the worker completes the stop: one `stopped` status is posted. -/
def c3s6 : RemoteState := worker_stopped c3s5

/-- A back state that just drained a lone `Stop` command (so
`pending_status` was marked by `Stop`, not by `Start`/`UpdateCodecs`). -/
def c8s : RemoteState := processMessagesB (postMessageB initialRemote Msg.stop)

/-- A destruction predicate for the re-entrant teardown scenario: the
`statusReady` callback for a `stopped` status destroys the object. -/
def c9kills : FrontEvent → Bool
  | .statusReady st => st.stopped
  | _ => false

/-- A front inbox for the re-entrant teardown scenario. -/
def c9inbox : List Msg :=
  [Msg.status {}, Msg.status { stopped := true }, Msg.status { finished := true }]

/-- A callback run is well-behaved for a destruction predicate `kills`
when any emitted event that destroys the receiver is the last event
emitted: nothing is delivered after the receiver dies. -/
def KillerIsLast (kills : FrontEvent → Bool) (L : List FrontEvent) : Prop :=
  ∀ pre e post, L = pre ++ e :: post → kills e = true → post = []

/-! ### Helper lemmas: coalescing as keep-last-occurrence plus filter -/

theorem getLatestFrame_eq_spec (t : FrameType) (l : List Msg) :
    getLatestFrameAndRemoveOthers t l =
      (specLastFrame t l, l.filter fun m => !isFrameOfType t m) := by
  induction l with
  | nil => rfl
  | cons m rest ih =>
    cases m with
    | frame ft img =>
      by_cases hft : ft = t
      · subst hft
        simp [getLatestFrameAndRemoveOthers, specLastFrame, isFrameOfType,
          List.filter_cons, ih]
        cases h : specLastFrame ft rest <;> simp [h]
      · simp [getLatestFrameAndRemoveOthers, specLastFrame, isFrameOfType, hft,
          List.filter_cons, ih]
        cases h : specLastFrame t rest <;> simp [h]
    | status st =>
      simp [getLatestFrameAndRemoveOthers, specLastFrame, isFrameOfType,
        List.filter_cons, ih]
      cases h : specLastFrame t rest <;> simp [h]
    | audioIntensity v =>
      simp [getLatestFrameAndRemoveOthers, specLastFrame, isFrameOfType,
        List.filter_cons, ih]
      cases h : specLastFrame t rest <;> simp [h]
    | start d c =>
      simp [getLatestFrameAndRemoveOthers, specLastFrame, isFrameOfType,
        List.filter_cons, ih]
      cases h : specLastFrame t rest <;> simp [h]
    | stop =>
      simp [getLatestFrameAndRemoveOthers, specLastFrame, isFrameOfType,
        List.filter_cons, ih]
      cases h : specLastFrame t rest <;> simp [h]
    | updateDevices d =>
      simp [getLatestFrameAndRemoveOthers, specLastFrame, isFrameOfType,
        List.filter_cons, ih]
      cases h : specLastFrame t rest <;> simp [h]
    | updateCodecs c =>
      simp [getLatestFrameAndRemoveOthers, specLastFrame, isFrameOfType,
        List.filter_cons, ih]
      cases h : specLastFrame t rest <;> simp [h]
    | transmit ua ai uv vi =>
      simp [getLatestFrameAndRemoveOthers, specLastFrame, isFrameOfType,
        List.filter_cons, ih]
      cases h : specLastFrame t rest <;> simp [h]
    | record en =>
      simp [getLatestFrameAndRemoveOthers, specLastFrame, isFrameOfType,
        List.filter_cons, ih]
      cases h : specLastFrame t rest <;> simp [h]

theorem getLatestAudio_eq_spec (l : List Msg) :
    getLatestAudioIntensityAndRemoveOthers l =
      (specLastAudio l, l.filter fun m => !isAudioIntensity m) := by
  induction l with
  | nil => rfl
  | cons m rest ih =>
    cases m <;>
      simp [getLatestAudioIntensityAndRemoveOthers, specLastAudio, isAudioIntensity,
        List.filter_cons, ih] <;>
      cases h : specLastAudio rest <;> simp [h]

/-- Filtering with a predicate that keeps every frame of kind `t` does not
change the last occurrence of kind `t`. -/
theorem specLastFrame_filter (t : FrameType) (p : Msg → Bool)
    (hp : ∀ img, p (Msg.frame t img) = true) (l : List Msg) :
    specLastFrame t (l.filter p) = specLastFrame t l := by
  induction l with
  | nil => rfl
  | cons m rest ih =>
    by_cases hm : p m = true
    · rw [List.filter_cons_of_pos hm]
      simp [specLastFrame, ih]
    · rw [List.filter_cons_of_neg (by simpa using hm)]
      rw [ih]
      cases h : specLastFrame t rest with
      | some i => simp [specLastFrame, h]
      | none =>
        simp only [specLastFrame, h]
        cases m with
        | frame ft img =>
          by_cases hft : ft = t
          · subst hft; exact absurd (hp img) hm
          · simp [hft]
        | status st => rfl
        | audioIntensity v => rfl
        | start d c => rfl
        | stop => rfl
        | updateDevices d => rfl
        | updateCodecs c => rfl
        | transmit ua ai uv vi => rfl
        | record en => rfl

/-- Filtering with a predicate that keeps every audio-intensity message
does not change the last audio intensity. -/
theorem specLastAudio_filter (p : Msg → Bool)
    (hp : ∀ v, p (Msg.audioIntensity v) = true) (l : List Msg) :
    specLastAudio (l.filter p) = specLastAudio l := by
  induction l with
  | nil => rfl
  | cons m rest ih =>
    by_cases hm : p m = true
    · rw [List.filter_cons_of_pos hm]
      simp [specLastAudio, ih]
    · rw [List.filter_cons_of_neg (by simpa using hm)]
      rw [ih]
      cases h : specLastAudio rest with
      | some v => simp [specLastAudio, h]
      | none =>
        simp only [specLastAudio, h]
        cases m with
        | audioIntensity v => exact absurd (hp v) hm
        | frame ft img => rfl
        | status st => rfl
        | start d c => rfl
        | stop => rfl
        | updateDevices d => rfl
        | updateCodecs c => rfl
        | transmit ua ai uv vi => rfl
        | record en => rfl

/-- Filtering with a predicate that keeps every status message does not
change the sequence of status events. -/
theorem statusEvents_filter (p : Msg → Bool)
    (hp : ∀ st, p (Msg.status st) = true) (l : List Msg) :
    statusEvents (l.filter p) = statusEvents l := by
  induction l with
  | nil => rfl
  | cons m rest ih =>
    by_cases hm : p m = true
    · rw [List.filter_cons_of_pos hm]
      cases m <;> simp [statusEvents, ih]
    · rw [List.filter_cons_of_neg (by simpa using hm)]
      cases m with
      | status st => exact absurd (hp st) hm
      | frame ft img => simp [statusEvents, ih]
      | audioIntensity v => simp [statusEvents, ih]
      | start d c => simp [statusEvents, ih]
      | stop => simp [statusEvents, ih]
      | updateDevices d => simp [statusEvents, ih]
      | updateCodecs c => simp [statusEvents, ih]
      | transmit ua ai uv vi => simp [statusEvents, ih]
      | record en => simp [statusEvents, ih]

/-- With no re-entrant destruction, the status loop emits exactly the
status events in order. -/
theorem emitStatuses_noKill (l : List Msg) :
    emitStatuses (fun _ => false) l = statusEvents l := by
  induction l with
  | nil => rfl
  | cons m rest ih => cases m <;> simp [emitStatuses, statusEvents, ih]

/-! ### Helper lemmas: push-time bounded retention -/

theorem frameCount_nil (t : FrameType) : frameCount t [] = 0 := rfl

theorem frameCount_cons_pos (t : FrameType) (m : Msg) (rest : List Msg)
    (hm : isFrameOfType t m = true) :
    frameCount t (m :: rest) = frameCount t rest + 1 := by
  simp [frameCount, List.filter_cons, hm]

theorem frameCount_cons_neg (t : FrameType) (m : Msg) (rest : List Msg)
    (hm : isFrameOfType t m = false) :
    frameCount t (m :: rest) = frameCount t rest := by
  simp [frameCount, List.filter_cons, hm]

theorem frameCount_append (t : FrameType) (l1 l2 : List Msg) :
    frameCount t (l1 ++ l2) = frameCount t l1 + frameCount t l2 := by
  simp [frameCount, List.filter_append]

theorem queuedFrameInfoAux_fst (l : List Msg) (t : FrameType) (i : Nat) :
    (queuedFrameInfoAux l t i).fst = frameCount t l := by
  induction l generalizing i with
  | nil => rfl
  | cons m rest ih =>
    by_cases hm : isFrameOfType t m = true
    · simp [queuedFrameInfoAux, hm, frameCount_cons_pos t m rest hm, ih]
    · simp [queuedFrameInfoAux, hm,
        frameCount_cons_neg t m rest (by simpa using hm), ih]

theorem queuedFrameInfo_fst (l : List Msg) (t : FrameType) :
    (queuedFrameInfo l t).fst = frameCount t l :=
  queuedFrameInfoAux_fst l t 0

theorem queuedFrameInfoAux_snd_erase (l : List Msg) (t : FrameType) :
    ∀ i, 0 < frameCount t l →
      ∃ p, (queuedFrameInfoAux l t i).snd = some (p + i) ∧
        l.eraseIdx p = removeFirstOfKind t l := by
  induction l with
  | nil => intro i h; simp [frameCount] at h
  | cons m rest ih =>
    intro i h
    by_cases hm : isFrameOfType t m = true
    · exact ⟨0, by simp [queuedFrameInfoAux, hm], by simp [removeFirstOfKind, hm]⟩
    · have hm' : isFrameOfType t m = false := by simpa using hm
      have hrest : 0 < frameCount t rest := by
        rwa [frameCount_cons_neg t m rest hm'] at h
      obtain ⟨p, hp1, hp2⟩ := ih (i + 1) hrest
      refine ⟨p + 1, ?_, ?_⟩
      · have : p + (i + 1) = p + 1 + i := by omega
        simp [queuedFrameInfoAux, hm, hp1, this]
      · simp [List.eraseIdx, removeFirstOfKind, hm', hp2]

theorem queuedFrameInfo_snd_erase (l : List Msg) (t : FrameType)
    (h : 0 < frameCount t l) :
    ∃ p, (queuedFrameInfo l t).snd = some p ∧
      l.eraseIdx p = removeFirstOfKind t l := by
  obtain ⟨p, hp1, hp2⟩ := queuedFrameInfoAux_snd_erase l t 0 h
  exact ⟨p, by simpa using hp1, hp2⟩

theorem frameCount_removeFirst_self (t : FrameType) (l : List Msg)
    (h : 0 < frameCount t l) :
    frameCount t (removeFirstOfKind t l) = frameCount t l - 1 := by
  induction l with
  | nil => simp [frameCount] at h
  | cons m rest ih =>
    by_cases hm : isFrameOfType t m = true
    · simp [removeFirstOfKind, hm, frameCount_cons_pos t m rest hm]
    · have hm' : isFrameOfType t m = false := by simpa using hm
      have hrest : 0 < frameCount t rest := by
        rwa [frameCount_cons_neg t m rest hm'] at h
      rw [removeFirstOfKind, if_neg (by simp [hm']),
        frameCount_cons_neg t m _ hm', frameCount_cons_neg t m rest hm', ih hrest]

theorem frameCount_removeFirst_other (t t' : FrameType) (hne : t' ≠ t) (l : List Msg) :
    frameCount t' (removeFirstOfKind t l) = frameCount t' l := by
  induction l with
  | nil => rfl
  | cons m rest ih =>
    by_cases hm : isFrameOfType t m = true
    · have hm' : isFrameOfType t' m = false := by
        cases m with
        | frame ft img =>
          simp [isFrameOfType] at hm ⊢
          exact fun hEq => hne (hEq ▸ hm)
        | status st => rfl
        | audioIntensity v => rfl
        | start d c => rfl
        | stop => rfl
        | updateDevices d => rfl
        | updateCodecs c => rfl
        | transmit ua ai uv vi => rfl
        | record en => rfl
      rw [removeFirstOfKind, if_pos hm, frameCount_cons_neg t' m rest hm']
    · have hm' : isFrameOfType t m = false := by simpa using hm
      rw [removeFirstOfKind, if_neg (by simp [hm'])]
      by_cases h2 : isFrameOfType t' m = true
      · rw [frameCount_cons_pos t' m _ h2, frameCount_cons_pos t' m rest h2, ih]
      · rw [frameCount_cons_neg t' m _ (by simpa using h2),
          frameCount_cons_neg t' m rest (by simpa using h2), ih]

/-! ### Helper lemmas: re-entrant destruction stops the drain -/

theorem killerIsLast_nil (kills : FrontEvent → Bool) : KillerIsLast kills [] := by
  intro pre e post h _
  exact absurd h.symm (by simp)

theorem killerIsLast_singleton (kills : FrontEvent → Bool) (e : FrontEvent) :
    KillerIsLast kills [e] := by
  intro pre x post h _
  cases pre with
  | nil =>
    have h' : e = x ∧ [] = post := by simpa using h
    exact h'.2.symm
  | cons a pre' =>
    simp at h

theorem killerIsLast_cons (kills : FrontEvent → Bool) (e : FrontEvent)
    (L : List FrontEvent) (he : kills e = false) (hL : KillerIsLast kills L) :
    KillerIsLast kills (e :: L) := by
  intro pre x post h hx
  cases pre with
  | nil =>
    have h' : e = x ∧ L = post := by simpa using h
    rw [h'.1, hx] at he
    exact absurd he (by simp)
  | cons a pre' =>
    have h' : e = a ∧ L = pre' ++ x :: post := by simpa using h
    exact hL pre' x post h'.2 hx

theorem emitStatuses_killerIsLast (kills : FrontEvent → Bool) (l : List Msg) :
    KillerIsLast kills (emitStatuses kills l) := by
  induction l with
  | nil => exact killerIsLast_nil kills
  | cons m rest ih =>
    cases m with
    | status st =>
      by_cases h : kills (FrontEvent.statusReady st) = true
      · simpa [emitStatuses, h] using killerIsLast_singleton kills _
      · have h' : kills (FrontEvent.statusReady st) = false := by simpa using h
        simpa [emitStatuses, h'] using killerIsLast_cons kills _ _ h' ih
    | frame ft img => simpa [emitStatuses] using ih
    | audioIntensity v => simpa [emitStatuses] using ih
    | start d c => simpa [emitStatuses] using ih
    | stop => simpa [emitStatuses] using ih
    | updateDevices d => simpa [emitStatuses] using ih
    | updateCodecs c => simpa [emitStatuses] using ih
    | transmit ua ai uv vi => simpa [emitStatuses] using ih
    | record en => simpa [emitStatuses] using ih

theorem drainStage3_killerIsLast (kills : FrontEvent → Bool) (l : List Msg) :
    KillerIsLast kills (drainStage3 kills l) := by
  rw [drainStage3]
  cases (getLatestAudioIntensityAndRemoveOthers l).fst with
  | none => exact emitStatuses_killerIsLast kills _
  | some v =>
    by_cases h : kills (FrontEvent.audioIntensityChanged v) = true
    · simpa [h] using killerIsLast_singleton kills _
    · have h' : kills (FrontEvent.audioIntensityChanged v) = false := by simpa using h
      simpa [h'] using killerIsLast_cons kills _ _ h' (emitStatuses_killerIsLast kills _)

theorem drainStage2_killerIsLast (kills : FrontEvent → Bool) (l : List Msg) :
    KillerIsLast kills (drainStage2 kills l) := by
  rw [drainStage2]
  cases (getLatestFrameAndRemoveOthers .output l).fst with
  | none => exact drainStage3_killerIsLast kills _
  | some img =>
    by_cases h : kills (FrontEvent.outputFrame img) = true
    · simpa [h] using killerIsLast_singleton kills _
    · have h' : kills (FrontEvent.outputFrame img) = false := by simpa using h
      simpa [h'] using killerIsLast_cons kills _ _ h' (drainStage3_killerIsLast kills _)

theorem processMessagesF_killerIsLast (kills : FrontEvent → Bool) (inbox : List Msg) :
    KillerIsLast kills (processMessagesF kills inbox) := by
  rw [processMessagesF]
  cases (getLatestFrameAndRemoveOthers .preview inbox).fst with
  | none => exact drainStage2_killerIsLast kills _
  | some img =>
    by_cases h : kills (FrontEvent.previewFrame img) = true
    · simpa [h] using killerIsLast_singleton kills _
    · have h' : kills (FrontEvent.previewFrame img) = false := by simpa using h
      simpa [h'] using killerIsLast_cons kills _ _ h' (drainStage2_killerIsLast kills _)

/-! ### Helper lemmas: resume, and the order of a full drain -/

theorem resumeMessages_blocking (s : RemoteState) (h : s.blocking = true) :
    (resumeMessages s).blocking = false := by
  rw [resumeMessages, if_pos h]
  dsimp only
  split <;> rfl

theorem resumeMessages_timer (s : RemoteState) (h : s.blocking = true)
    (hi : s.inbox ≠ []) : (resumeMessages s).timer = true := by
  rw [resumeMessages, if_pos h]
  dsimp only
  by_cases ht : s.timer = false
  · rw [if_pos ⟨hi, ht⟩]
  · rw [if_neg (fun hc => ht hc.2)]
    simpa using ht

theorem drainStage3_noKill (l : List Msg) :
    drainStage3 (fun _ => false) l =
      optList ((specLastAudio l).map FrontEvent.audioIntensityChanged) ++
        statusEvents l := by
  have hst : statusEvents (l.filter fun m => !isAudioIntensity m) = statusEvents l :=
    statusEvents_filter _ (fun st => rfl) l
  rw [drainStage3, getLatestAudio_eq_spec]
  cases h : specLastAudio l <;> simp [emitStatuses_noKill, optList, hst]

theorem drainStage2_noKill (l : List Msg) :
    drainStage2 (fun _ => false) l =
      optList ((specLastFrame .output l).map FrontEvent.outputFrame) ++
        optList ((specLastAudio l).map FrontEvent.audioIntensityChanged) ++
        statusEvents l := by
  have hau : specLastAudio (l.filter fun m => !isFrameOfType .output m) =
      specLastAudio l :=
    specLastAudio_filter _ (fun v => rfl) l
  have hst : statusEvents (l.filter fun m => !isFrameOfType .output m) =
      statusEvents l :=
    statusEvents_filter _ (fun st => rfl) l
  rw [drainStage2, getLatestFrame_eq_spec]
  cases h : specLastFrame .output l <;>
    simp [drainStage3_noKill, optList, hau, hst]

theorem resumeMessages_outbox (s : RemoteState) :
    (resumeMessages s).outbox = s.outbox := by
  rw [resumeMessages]
  split
  · dsimp only; split <;> rfl
  · rfl

theorem resumeMessages_pending (s : RemoteState) :
    (resumeMessages s).pending_status = s.pending_status := by
  rw [resumeMessages]
  split
  · dsimp only; split <;> rfl
  · rfl

/-! ### Claim theorems -/

/-- C1 (counterexample): an `UpdateDevices` message does put the drain
loop of `RwControlRemote` into the blocked state.  `processMessage`
returns `false` for it, and a drain whose only message is an
`UpdateDevices` ends with `blocking = true`: the claim that
`UpdateDevices` is processed without entering the Blocked state is false. -/
theorem C1_counterexample_updateDevices_blocks :
    (processMessage initialRemote (Msg.updateDevices 0)).fst = false ∧
    (processMessagesB (postMessageB initialRemote (Msg.updateDevices 0))).blocking = true := by
  decide

/-- C1 (amended): processing a `Transmit` or `Record` message applies it
to the worker and lets the drain loop continue; `Start`, `Stop`,
`UpdateDevices` and `UpdateCodecs` — and only these — make
`processMessage` return `false`, which puts the drain loop into the
blocked state with the remaining messages still queued. -/
theorem C1_amended_blocking_commands (s : RemoteState) (m : Msg)
    (ua : Bool) (ai : Int) (uv : Bool) (vi : Int) (en : Bool) (d : Nat)
    (rest : List Msg) :
    ((processMessage s m).fst = false ↔
      ((∃ dd cc, m = Msg.start dd cc) ∨ m = Msg.stop ∨
        (∃ dd, m = Msg.updateDevices dd) ∨ (∃ cc, m = Msg.updateCodecs cc))) ∧
    drainLoop s (Msg.transmit ua ai uv vi :: rest) =
      drainLoop (processMessage s (Msg.transmit ua ai uv vi)).snd rest ∧
    drainLoop s (Msg.record en :: rest) =
      drainLoop (processMessage s (Msg.record en)).snd rest ∧
    (drainLoop s (Msg.updateDevices d :: rest)).blocking = true ∧
    (drainLoop s (Msg.updateDevices d :: rest)).inbox = rest := by
  refine ⟨?_, ?_, ?_, ?_, ?_⟩
  · cases m <;> simp [processMessage]
  · rw [drainLoop]; simp [processMessage]
  · rw [drainLoop]; simp [processMessage]
  · rw [drainLoop]; simp [processMessage]
  · rw [drainLoop]; simp [processMessage]

/-- C3: if `Stop` is posted right after `Start` and both are drained
before any worker completion, the first drain dispatches only the
`Start` (the `Stop` stays queued, so the two lifecycle operations are
never in flight together); the `started` completion posts exactly one
(non-stopped) status and reschedules the drain; the second drain then
dispatches the `Stop`; the `stopped` completion posts exactly one
status with `stopped = true`. -/
theorem C3_start_stop_serialized :
    c3s3.blocking = true ∧
    c3s3.inbox = [Msg.stop] ∧
    c3s3.workerOps = [WorkerOp.applyDevices 1, WorkerOp.applyCodecs 2, WorkerOp.start] ∧
    c3s3.outbox = [] ∧
    c3s4.outbox = [Msg.status statusFromWorker] ∧
    c3s4.blocking = false ∧
    c3s4.timer = true ∧
    c3s5.workerOps =
      [WorkerOp.applyDevices 1, WorkerOp.applyCodecs 2, WorkerOp.start, WorkerOp.stop] ∧
    c3s5.blocking = true ∧
    c3s5.outbox = [Msg.status statusFromWorker] ∧
    c3s6.outbox =
      [Msg.status statusFromWorker,
       Msg.status { statusFromWorker with stopped := true }] := by
  decide

/-- C4: pushing 15 preview frames (images 1..15) into an empty front
inbox and then draining delivers exactly one `previewFrame` callback,
carrying the image of the 15th frame. -/
theorem C4_fifteen_preview_frames :
    processMessagesF (fun _ => false) c4inbox = [FrontEvent.previewFrame 15] := by
  decide

/-- C5: the coalescing helpers keep, for each kind, exactly the last
occurrence in the batch (`specLastFrame` / `specLastAudio`), and the
survivors are the original batch with every message of that kind
removed — a filter, so their relative order is preserved. -/
theorem C5_coalescing_keeps_last (t : FrameType) (l : List Msg) :
    getLatestFrameAndRemoveOthers t l =
      (specLastFrame t l, l.filter fun m => !isFrameOfType t m) ∧
    getLatestAudioIntensityAndRemoveOthers l =
      (specLastAudio l, l.filter fun m => !isAudioIntensity m) :=
  ⟨getLatestFrame_eq_spec t l, getLatestAudio_eq_spec l⟩

/-- C7: a full front drain (with no re-entrant destruction) emits, in
this order: at most one preview frame (the last queued), then at most
one output frame (the last queued), then at most one audio intensity
(the last queued), then the status events in arrival order. -/
theorem C7_dispatch_order (inbox : List Msg) :
    processMessagesF (fun _ => false) inbox =
      optList ((specLastFrame .preview inbox).map FrontEvent.previewFrame) ++
      optList ((specLastFrame .output inbox).map FrontEvent.outputFrame) ++
      optList ((specLastAudio inbox).map FrontEvent.audioIntensityChanged) ++
      statusEvents inbox := by
  have hof : specLastFrame .output (inbox.filter fun m => !isFrameOfType .preview m) =
      specLastFrame .output inbox :=
    specLastFrame_filter _ _ (fun img => rfl) inbox
  have hau : specLastAudio (inbox.filter fun m => !isFrameOfType .preview m) =
      specLastAudio inbox := specLastAudio_filter _ (fun v => rfl) inbox
  have hst : statusEvents (inbox.filter fun m => !isFrameOfType .preview m) =
      statusEvents inbox := statusEvents_filter _ (fun st => rfl) inbox
  rw [processMessagesF, getLatestFrame_eq_spec]
  cases h : specLastFrame .preview inbox <;>
    simp [drainStage2_noKill, optList, hof, hau, hst]

/-- C8 (counterexample): after draining a lone `Stop` command — with no
`Start` or `UpdateCodecs` anywhere in the trace — `pending_status` is
set, and a worker `updated` completion then emits a Status.  So "an
`updated` completion emits a Status iff one was marked pending by a
preceding Start or UpdateCodecs" is false: `Stop` also marks one. -/
theorem C8_counterexample_stop_marks_pending :
    c8s.pending_status = true ∧
    c8s.workerOps = [WorkerOp.stop] ∧
    c8s.outbox = [] ∧
    (worker_updated c8s).outbox = [Msg.status statusFromWorker] := by
  decide

/-- C8 (amended): processing `UpdateDevices` posts no message (in
particular no Status) and leaves the pending flag untouched; no command
dispatch posts a Status at all; a worker `updated` completion emits a
Status iff the pending flag is set and always leaves it cleared; and
the pending flag is set after a dispatch iff the command was `Start`,
`Stop` or `UpdateCodecs`, or it was already set. -/
theorem C8_amended_pending_flag (s : RemoteState) (d : Nat) (m : Msg) :
    (processMessage s (Msg.updateDevices d)).snd.outbox = s.outbox ∧
    (processMessage s (Msg.updateDevices d)).snd.pending_status = s.pending_status ∧
    (processMessage s m).snd.outbox = s.outbox ∧
    ((worker_updated s).outbox =
      s.outbox ++ if s.pending_status then [Msg.status statusFromWorker] else []) ∧
    (worker_updated s).pending_status = false ∧
    ((processMessage s m).snd.pending_status = true ↔
      ((∃ dd cc, m = Msg.start dd cc) ∨ m = Msg.stop ∨
        (∃ cc, m = Msg.updateCodecs cc) ∨ s.pending_status = true)) := by
  refine ⟨rfl, rfl, ?_, ?_, ?_, ?_⟩
  · cases m <;> rfl
  · rw [worker_updated]
    by_cases hp : s.pending_status <;> simp [hp, resumeMessages_outbox]
  · rw [worker_updated]
    by_cases hp : s.pending_status <;> simp [hp, resumeMessages_pending]
  · cases m <;> simp [processMessage]

/-- C10: every `Transmit` dispatch applies exactly one audio operation
(`transmitAudio(audioIndex)` if `useAudio`, else `pauseAudio`) followed
by exactly one video operation (`transmitVideo(videoIndex)` if
`useVideo`, else `pauseVideo`), audio before video, and the drain
continues (the dispatch returns `true`). -/
theorem C10_transmit_ops (s : RemoteState) (ua : Bool) (ai : Int) (uv : Bool) (vi : Int) :
    (processMessage s (Msg.transmit ua ai uv vi)).snd.workerOps =
      s.workerOps ++
        [if ua then WorkerOp.transmitAudio ai else WorkerOp.pauseAudio,
         if uv then WorkerOp.transmitVideo vi else WorkerOp.pauseVideo] ∧
    (processMessage s (Msg.transmit ua ai uv vi)).fst = true := by
  cases ua <;> cases uv <;> simp [processMessage]

/-- C2 (counterexample): the `stopped` completion callback does not
transition Blocked → Idle.  On a blocked state with a non-empty inbox,
`worker_stopped` leaves `blocking = true` and schedules no wake, so the
claim that all five completion callbacks clear the blocking flag and
resume draining is false. -/
theorem C2_counterexample_stopped_keeps_blocking :
    c2s.blocking = true ∧ c2s.inbox ≠ [] ∧
    (worker_stopped c2s).blocking = true ∧
    (worker_stopped c2s).timer = false := by
  decide

/-- C2 (amended): of the five completion callbacks only `started` and
`updated` transition Blocked → Idle (clear the blocking flag) and, when
the back inbox is non-empty, leave a wake scheduled; `stopped`,
`finished` and `error` leave the blocking flag set and do not schedule
a wake. -/
theorem C2_amended_only_started_updated_resume (s : RemoteState)
    (h : s.blocking = true) :
    (worker_started s).blocking = false ∧
    (worker_updated s).blocking = false ∧
    (s.inbox ≠ [] → (worker_started s).timer = true) ∧
    (s.inbox ≠ [] → (worker_updated s).timer = true) ∧
    (worker_stopped s).blocking = true ∧
    (worker_finished s).blocking = true ∧
    (worker_error s).blocking = true ∧
    (worker_stopped s).timer = s.timer ∧
    (worker_finished s).timer = s.timer ∧
    (worker_error s).timer = s.timer := by
  refine ⟨resumeMessages_blocking _ h, ?_, fun hi => resumeMessages_timer _ h hi, ?_,
    h, h, h, rfl, rfl, rfl⟩
  · rw [worker_updated]
    by_cases hp : s.pending_status <;> simp only [hp, if_true, if_false] <;>
      exact resumeMessages_blocking _ h
  · intro hi
    rw [worker_updated]
    by_cases hp : s.pending_status <;> simp only [hp, if_true, if_false] <;>
      exact resumeMessages_timer _ h hi

/-- C2 (witness): the amended theorem at the concrete blocked state `c2s`. -/
theorem C2_witness :
    c2s.blocking = true ∧
    (worker_started c2s).blocking = false ∧
    (worker_started c2s).timer = true ∧
    (worker_stopped c2s).blocking = true := by
  have h := C2_amended_only_started_updated_resume c2s (by decide)
  exact ⟨by decide, h.1, h.2.2.1 (by decide), h.2.2.2.2.1⟩

theorem postMessageF_frame_full (q : List Msg) (t : FrameType) (img : Nat)
    (h : QUEUE_FRAME_MAX ≤ frameCount t q) :
    postMessageF q (Msg.frame t img) = removeFirstOfKind t q ++ [Msg.frame t img] := by
  have hpos : 0 < frameCount t q := by
    have : (0 : Nat) < QUEUE_FRAME_MAX := by decide
    omega
  obtain ⟨p, hp1, hp2⟩ := queuedFrameInfo_snd_erase q t hpos
  rw [postMessageF]
  rw [queuedFrameInfo_fst, if_pos h, hp1]
  exact congrArg (fun l => l ++ [Msg.frame t img]) hp2

theorem postMessageF_frame_notfull (q : List Msg) (t : FrameType) (img : Nat)
    (h : frameCount t q < QUEUE_FRAME_MAX) :
    postMessageF q (Msg.frame t img) = q ++ [Msg.frame t img] := by
  rw [postMessageF]
  rw [queuedFrameInfo_fst, if_neg (by omega)]

/-- C6: pushing into the front inbox preserves the per-kind bound of
`QUEUE_FRAME_MAX` frames; a frame push never changes the count of the
other kind (frames of the other kind are never evicted); and when the
pushed kind is at the bound, the queue becomes the old queue with the
oldest frame of that kind removed, with the new frame appended. -/
theorem C6_push_bounded (q : List Msg) (m : Msg) (t : FrameType) (img : Nat)
    (h1 : frameCount FrameType.preview q ≤ QUEUE_FRAME_MAX)
    (h2 : frameCount FrameType.output q ≤ QUEUE_FRAME_MAX) :
    (∀ t', frameCount t' (postMessageF q m) ≤ QUEUE_FRAME_MAX) ∧
    (∀ t', t' ≠ t → frameCount t' (postMessageF q (Msg.frame t img)) = frameCount t' q) ∧
    (frameCount t q = QUEUE_FRAME_MAX →
      postMessageF q (Msg.frame t img) = removeFirstOfKind t q ++ [Msg.frame t img]) := by
  have hmax : QUEUE_FRAME_MAX = 10 := rfl
  have hq : ∀ t', frameCount t' q ≤ QUEUE_FRAME_MAX := by
    intro t'
    cases t'
    · exact h1
    · exact h2
  refine ⟨?_, ?_, ?_⟩
  · intro t'
    cases m with
    | frame tf imgf =>
      rcases lt_or_ge (frameCount tf q) QUEUE_FRAME_MAX with hlt | hge
      · rw [postMessageF_frame_notfull q tf imgf hlt, frameCount_append]
        by_cases ht' : t' = tf
        · subst ht'
          rw [frameCount_cons_pos t' (Msg.frame t' imgf) [] (by simp [isFrameOfType]),
            frameCount_nil]
          omega
        · rw [frameCount_cons_neg t' (Msg.frame tf imgf) []
              (by simp [isFrameOfType]; exact fun hEq => ht' hEq.symm), frameCount_nil]
          simpa using hq t'
      · have hpos : 0 < frameCount tf q := by omega
        rw [postMessageF_frame_full q tf imgf hge, frameCount_append]
        by_cases ht' : t' = tf
        · subst ht'
          rw [frameCount_removeFirst_self t' q hpos,
            frameCount_cons_pos t' (Msg.frame t' imgf) [] (by simp [isFrameOfType]),
            frameCount_nil]
          have := hq t'
          omega
        · rw [frameCount_removeFirst_other tf t' ht',
            frameCount_cons_neg t' (Msg.frame tf imgf) []
              (by simp [isFrameOfType]; exact fun hEq => ht' hEq.symm), frameCount_nil]
          simpa using hq t'
    | status st =>
      rw [show postMessageF q (Msg.status st) = q ++ [Msg.status st] from rfl,
        frameCount_append, frameCount_cons_neg t' (Msg.status st) [] rfl, frameCount_nil]
      simpa using hq t'
    | audioIntensity v =>
      rw [show postMessageF q (Msg.audioIntensity v) = q ++ [Msg.audioIntensity v] from rfl,
        frameCount_append, frameCount_cons_neg t' (Msg.audioIntensity v) [] rfl,
        frameCount_nil]
      simpa using hq t'
    | start d c =>
      rw [show postMessageF q (Msg.start d c) = q ++ [Msg.start d c] from rfl,
        frameCount_append, frameCount_cons_neg t' (Msg.start d c) [] rfl, frameCount_nil]
      simpa using hq t'
    | stop =>
      rw [show postMessageF q Msg.stop = q ++ [Msg.stop] from rfl,
        frameCount_append, frameCount_cons_neg t' Msg.stop [] rfl, frameCount_nil]
      simpa using hq t'
    | updateDevices d =>
      rw [show postMessageF q (Msg.updateDevices d) = q ++ [Msg.updateDevices d] from rfl,
        frameCount_append, frameCount_cons_neg t' (Msg.updateDevices d) [] rfl,
        frameCount_nil]
      simpa using hq t'
    | updateCodecs c =>
      rw [show postMessageF q (Msg.updateCodecs c) = q ++ [Msg.updateCodecs c] from rfl,
        frameCount_append, frameCount_cons_neg t' (Msg.updateCodecs c) [] rfl,
        frameCount_nil]
      simpa using hq t'
    | transmit ua ai uv vi =>
      rw [show postMessageF q (Msg.transmit ua ai uv vi) = q ++ [Msg.transmit ua ai uv vi]
          from rfl,
        frameCount_append, frameCount_cons_neg t' (Msg.transmit ua ai uv vi) [] rfl,
        frameCount_nil]
      simpa using hq t'
    | record en =>
      rw [show postMessageF q (Msg.record en) = q ++ [Msg.record en] from rfl,
        frameCount_append, frameCount_cons_neg t' (Msg.record en) [] rfl, frameCount_nil]
      simpa using hq t'
  · intro t' hne
    rcases lt_or_ge (frameCount t q) QUEUE_FRAME_MAX with hlt | hge
    · rw [postMessageF_frame_notfull q t img hlt, frameCount_append,
        frameCount_cons_neg t' (Msg.frame t img) []
          (by simp [isFrameOfType]; exact fun hEq => hne hEq.symm), frameCount_nil]
      omega
    · rw [postMessageF_frame_full q t img hge, frameCount_append,
        frameCount_removeFirst_other t t' hne,
        frameCount_cons_neg t' (Msg.frame t img) []
          (by simp [isFrameOfType]; exact fun hEq => hne hEq.symm), frameCount_nil]
      omega
  · intro hfull
    exact postMessageF_frame_full q t img (le_of_eq hfull.symm)

/-- C6 (witness): the push-bound theorem at a queue holding exactly ten
preview frames and an eleventh preview frame being pushed. -/
theorem C6_witness :
    (∀ t', frameCount t' (postMessageF c6q (Msg.frame FrameType.preview 99)) ≤
      QUEUE_FRAME_MAX) ∧
    postMessageF c6q (Msg.frame FrameType.preview 99) =
      removeFirstOfKind FrameType.preview c6q ++ [Msg.frame FrameType.preview 99] := by
  have h := C6_push_bounded c6q (Msg.frame FrameType.preview 99) FrameType.preview 99
    (by decide) (by decide)
  exact ⟨h.1, h.2.2 (by decide)⟩

/-- C9: if an observer callback destroys the `RwControlLocal` object
mid-drain (`kills e = true` for the emitted event `e`), the drain
detects it after that callback returns and invokes no further callback:
any destroying event is the last one emitted, and the still-queued
remainder of the batch is discarded. -/
theorem C9_reentrant_destruction (kills : FrontEvent → Bool) (inbox : List Msg)
    (pre : List FrontEvent) (e : FrontEvent) (post : List FrontEvent)
    (h : processMessagesF kills inbox = pre ++ e :: post) (he : kills e = true) :
    post = [] :=
  processMessagesF_killerIsLast kills inbox pre e post h he

/-- C9 (witness): a concrete drain in which the second status callback
destroys the object; the emitted run ends at exactly that event. -/
theorem C9_witness :
    processMessagesF c9kills c9inbox =
      [FrontEvent.statusReady {}] ++ FrontEvent.statusReady { stopped := true } :: [] ∧
    c9kills (FrontEvent.statusReady { stopped := true }) = true ∧
    ([] : List FrontEvent) = [] :=
  ⟨by decide, by decide,
   C9_reentrant_destruction c9kills c9inbox [FrontEvent.statusReady {}]
     (FrontEvent.statusReady { stopped := true }) [] (by decide) (by decide)⟩

end RwControl
